import Mathlib

/-!
Verification development for the `@crabel/shared` schema toolkit.

The JavaScript sources under `schema/` (Schema.js, common.js, converters/struct.js)
and the XML converter are shallowly embedded below.  JavaScript objects are
modelled as association lists in insertion order (`jsLookup` takes the first
binding, `jsUpsert` overwrites in place, mirroring property assignment), and
JavaScript exceptions are modelled with `Except`.  General recursion that is not
structurally terminating in the source (document loading, dependency closure
expansion, the XML lowering walk) is modelled with an explicit fuel parameter;
running out of fuel is a distinguished outcome that never coincides with a real
result, so a `.ok` result at some concrete fuel witnesses termination of the
unbounded recursion.

Fields of the source objects that no claim observes (the `doc` free-text field,
the `author`/`root_namespace` attributes) are elided from the records; every
behaviour-carrying field (types, names, members, values, templates,
dependencies, version) is embedded.
-/

namespace JsShared

/-- Association list lookup, modelling JavaScript property access `o[k]`:
the first binding for a key wins (JS objects cannot hold duplicate keys, so
well-formed lists have at most one). -/
def jsLookup {α : Type} : List (String × α) → String → Option α
  | [], _ => none
  | (k, v) :: rest, key => if k = key then some v else jsLookup rest key

/-- Association list update, modelling JavaScript property assignment
`o[k] = v`: replaces the existing binding in place, otherwise appends,
preserving JS insertion-order enumeration. -/
def jsUpsert {α : Type} : List (String × α) → String → α → List (String × α)
  | [], key, v => [(key, v)]
  | (k, w) :: rest, key, v =>
      if k = key then (key, v) :: rest else (k, w) :: jsUpsert rest key v

theorem jsLookup_upsert_self {α : Type} (l : List (String × α)) (k : String) (v : α) :
    jsLookup (jsUpsert l k v) k = some v := by
  induction l with
  | nil => simp [jsUpsert, jsLookup]
  | cons hd tl ih =>
      obtain ⟨k', w⟩ := hd
      by_cases h : k' = k
      · simp [jsUpsert, h, jsLookup]
      · simp [jsUpsert, h, jsLookup, ih]

theorem jsLookup_upsert_ne {α : Type} (l : List (String × α)) (k k' : String) (v : α)
    (h : k' ≠ k) : jsLookup (jsUpsert l k v) k' = jsLookup l k' := by
  have h' : ¬(k = k') := fun hh => h hh.symm
  induction l with
  | nil => simp [jsUpsert, jsLookup, h']
  | cons hd tl ih =>
      obtain ⟨k0, w⟩ := hd
      by_cases h0 : k0 = k
      · subst h0
        simp [jsUpsert, jsLookup, h']
      · by_cases h1 : k0 = k'
        · simp [jsUpsert, h0, jsLookup, h1, h]
        · simp [jsUpsert, h0, jsLookup, h1, ih]

/-- Preservation of existing bindings by an upsert: bindings present before the
update are still found afterwards, except for the updated key itself. -/
theorem jsLookup_upsert_of_some {α : Type} (l : List (String × α)) (k k' : String)
    (v w : α) (hold : jsLookup l k' = some w) (hne : jsLookup l k = none) :
    jsLookup (jsUpsert l k v) k' = some w := by
  by_cases h : k' = k
  · subst h
    rw [hold] at hne
    exact absurd hne (by simp)
  · rw [jsLookup_upsert_ne l k k' v h]
    exact hold

/-! ## Version compatibility (Schema.js, `doc_version.isValid`)

The supported schema version is `major = 1`, `minor = 0`.  The checker splits a
version string on dots, rejects any token that is not numeric, requires at
least two components, and accepts when the major component equals the
supported major and the minor component is at most the supported minor.
The numeric-token model below covers the fragment of JavaScript `isNaN` /
`Number` needed for version strings: optionally whitespace-padded digit
strings (the empty string coerces to `0`, as in JS). -/

def docVersionMajor : Int := 1

def docVersionMinor : Int := 0

/-- Model of splitting a string on the dot character, as
`v.split(".")` does in JavaScript (so `""` yields `[""]` and a trailing
dot yields a trailing empty token). -/
def splitDotsAux : List Char → List Char → List String
  | [], acc => [String.mk acc.reverse]
  | c :: rest, acc =>
      if c = '.' then String.mk acc.reverse :: splitDotsAux rest []
      else splitDotsAux rest (c :: acc)

def splitDots (s : String) : List String :=
  splitDotsAux s.data []

/-- Numeric value of a decimal digit string. -/
def digitsVal : List Char → Option Nat
  | [] => some 0
  | c :: rest =>
      match digitsVal rest with
      | none => none
      | some _ =>
          if c.isDigit then
            (digitsVal rest).map (fun n => (c.toNat - 48) * 10 ^ rest.length + n)
          else none

/-- Model of the JavaScript numeric coercion used by `isValid`: `isNaN(tok)`
followed by `Number(tok.trim())`.  Whitespace is stripped, the empty string
coerces to `0`, and otherwise the token must be all decimal digits (the
fragment exercised by version strings). -/
def jsNumTok (s : String) : Option Int :=
  let t := String.mk ((s.data.dropWhile Char.isWhitespace).reverse.dropWhile
    Char.isWhitespace).reverse
  if t = "" then some 0
  else (digitsVal t.data).map Int.ofNat

/-- Model of `doc_version.isValid` on a string argument (Schema.js lines
36-56): split on dots, flag any non-numeric token, require at least two
components, then compare against the supported major/minor. -/
def isValidVersionStr (s : String) : Bool :=
  let nums := (splitDots s).map jsNumTok
  if nums.any Option.isNone then false
  else if nums.length < 2 then false
  else
    match nums with
    | n0 :: n1 :: _ => decide (n0.getD 0 = docVersionMajor) && decide (n1.getD 0 ≤ docVersionMinor)
    | _ => false

/-- Wrapper adding the leading falsy check `if (!v) return false` for a
possibly-absent version field (`none` models `undefined`; the empty string is
falsy in JavaScript). -/
def isValidVersion : Option String → Bool
  | none => false
  | some s => if s = "" then false else isValidVersionStr s

/-! ## TypeCatalog (common.js `exports.types`) and restructure codecs -/

/-- Binary codec values of the `restructure` library as used by the sources:
fixed-width integers (`rs.int8` … `rs.uint64`, with a byte size and a
signedness flag where `true` means unsigned), IEEE floats, `rs.Boolean`
over a carrier integer, variable strings `rs.String(lengthType, encoding)`
whose length prefix is encoded with the given integer codec, and fixed
strings `rs.String(size)`. -/
inductive RsType where
  | intT (size : Nat) (unsigned : Bool)
  | floatT
  | doubleT
  | boolT (carrier : RsType)
  | stringVar (lenType : RsType) (encoding : Option String)
  | stringFixed (size : Nat)
deriving DecidableEq, Repr

/-- Schema type descriptor as stored in `common.types` and consumed by
`getBinaryType`: a category string, optional byte size, optional declared
minimum, and an optional pre-built native codec. -/
structure TypeDef where
  ttype : String
  size : Option Nat
  min : Option Int
  native : Option RsType
deriving DecidableEq, Repr

/-- Embedding of the `exports.types` table of common.js (lines 137-151). -/
def commonTypesTable : List (String × TypeDef) :=
  [ ("int8", TypeDef.mk "Integer" (some 1) none (some (RsType.intT 1 false))),
    ("int16", TypeDef.mk "Integer" (some 2) none (some (RsType.intT 2 false))),
    ("int32", TypeDef.mk "Integer" (some 4) none (some (RsType.intT 4 false))),
    ("int64", TypeDef.mk "Integer" (some 8) none (some (RsType.intT 8 false))),
    ("uint8", TypeDef.mk "Integer" (some 1) (some 0) (some (RsType.intT 1 true))),
    ("uint16", TypeDef.mk "Integer" (some 2) (some 0) (some (RsType.intT 2 true))),
    ("uint32", TypeDef.mk "Integer" (some 4) (some 0) (some (RsType.intT 4 true))),
    ("uint64", TypeDef.mk "Integer" (some 8) (some 0) (some (RsType.intT 8 true))),
    ("float", TypeDef.mk "Numeric" (some 4) none (some RsType.floatT)),
    ("double", TypeDef.mk "Numeric" (some 8) none (some RsType.doubleT)),
    ("bool", TypeDef.mk "Boolean" none none (some (RsType.boolT (RsType.intT 1 true)))),
    ("string", TypeDef.mk "Alpha" none none
      (some (RsType.stringVar (RsType.intT 4 true) (some "utf8")))),
    ("node", TypeDef.mk "Node" none none none) ]

/-- Lookup in the type table, modelling `common.types[name]`. -/
def commonTypes (name : String) : Option TypeDef :=
  jsLookup commonTypesTable name

/-- Modelled from the spec: `common.types.isPrimitive` is called by
Schema.js (line 488) but its definition is not present in the sources;
spec section 4.1 fixes it as true exactly for the Integer, Numeric, Boolean
and Alpha categories (excluding Node and composite types). -/
def isPrimitiveTy (name : String) : Bool :=
  match commonTypes name with
  | some td =>
      td.ttype = "Integer" || td.ttype = "Numeric" || td.ttype = "Boolean" || td.ttype = "Alpha"
  | none => false

/-- Modelled from the spec: `common.types.isNumeric` is called by Schema.js
(line 501) but its definition is not present in the sources; spec section 4.1
calls it a category predicate used by enum-value validation, and the spec's
enum rule (an `int32` enum value must parse as a number, testable property
"Enum numeric validation") fixes it to hold for the number-valued categories,
Integer and Numeric. -/
def isNumericTy (name : String) : Bool :=
  match commonTypes name with
  | some td => td.ttype = "Integer" || td.ttype = "Numeric"
  | none => false

/-- Modelled from the spec: `common.types.isInline` is called by Schema.js
(lines 374-375) but its definition is not present in the sources; the spec's
glossary defines an inline type as a struct/union/enum whose members are
folded into the enclosing scope. -/
def isInline (ty : String) : Bool :=
  ty = "struct" || ty = "union" || ty = "enum"

/-- Embedding of `getBinaryType` from converters/struct.js (lines 14-51).
A descriptor with a prebuilt `native` codec returns it unchanged; otherwise
the category/size table applies.  The result is `Option RsType` inside
`Except` because the source function falls through (returns `undefined`) for
unknown categories, while bad sizes throw. -/
def getBinaryType (td : TypeDef) : Except String (Option RsType) :=
  match td.native with
  | some n => .ok (some n)
  | none =>
    if td.ttype = "Integer" then
      let unsigned := match td.min with
        | some m => decide (0 ≤ m)
        | none => false
      match td.size with
      | none => .ok (some (RsType.intT 4 unsigned))
      | some 0 => .ok (some (RsType.intT 4 unsigned))
      | some 4 => .ok (some (RsType.intT 4 unsigned))
      | some 1 => .ok (some (RsType.intT 1 unsigned))
      | some 2 => .ok (some (RsType.intT 2 unsigned))
      | some 8 => .ok (some (RsType.intT 8 unsigned))
      | some _ => .error "Invalid integral type"
    else if td.ttype = "Number" then
      match td.size with
      | some 4 => .ok (some RsType.floatT)
      | some 8 => .ok (some RsType.doubleT)
      | _ => .error "Invalid numerical type"
    else if td.ttype = "Boolean" then
      .ok (some (RsType.boolT (RsType.intT 1 true)))
    else if td.ttype = "Alpha" then
      match td.size with
      | none => .ok (some (RsType.stringVar (RsType.intT 1 true) (some "utf8")))
      | some n => .ok (some (RsType.stringFixed n))
    else .ok none

/-- The codec `getBinaryType` picks for an Alpha descriptor that has no
native codec and no fixed size: a string with a one-byte length prefix. -/
def rsStringU8 : RsType := RsType.stringVar (RsType.intT 1 true) (some "utf8")

/-- The native codec of the built-in `string` type: a string with a
four-byte length prefix. -/
def rsStringU32 : RsType := RsType.stringVar (RsType.intT 4 true) (some "utf8")

/-- Little-endian byte encoding of a natural number over `w` bytes. -/
def encodeLE (w : Nat) (n : Nat) : List Nat :=
  (List.range w).map (fun i => n / 256 ^ i % 256)

def rsIntWidth : RsType → Option Nat
  | RsType.intT s _ => some s
  | _ => none

/-- Byte-level behaviour of a variable-length string codec: the payload length
is written with the length codec (little-endian over its width, reduced
modulo its range) followed by the payload bytes. -/
def encodeRsString (c : RsType) (bytes : List Nat) : Option (List Nat) :=
  match c with
  | RsType.stringVar lt _ =>
      (rsIntWidth lt).map (fun w => encodeLE w (bytes.length % 256 ^ w) ++ bytes)
  | _ => none

/-! ## Schema members (Schema.js, `Member` and `validateMember`)

Raw member records model the parsed JSON data handed to the `Member`
constructor.  Enum value entries are JavaScript values: initially
`{name, value}` objects, but the validator overwrites each slot of the
`values` array with `Number(entry)` — coercing the whole entry object, which
yields `NaN` — so a cell is either an `entry` or a number (`EVal`). -/

/-- JavaScript value of an enum `value` field: a string, a number, or NaN. -/
inductive EVal where
  | str (s : String)
  | num (n : Int)
  | nanV
deriving DecidableEq

/-- One slot of an enum `values` array: a raw `{name, value}` entry object,
or the number a slot holds after the validator overwrites it. -/
inductive EnumCell where
  | entry (name : Option String) (value : Option EVal)
  | numv (v : EVal)
deriving DecidableEq

/-- Raw member record as read from the schema JSON.  `none` models an absent
(`undefined`) field, `some ""` an empty string (falsy but defined).  `params`
models the parameter list of `function` members (only their type strings are
observed, by `getName`). -/
inductive RawMember where
  | mk (rtype : Option String) (name : Option String) (valueType : Option String)
      (values : Option (List EnumCell)) (members : Option (List RawMember))
      (template : Option String) (params : List String)

def RawMember.rtype : RawMember → Option String
  | .mk t _ _ _ _ _ _ => t

def RawMember.name : RawMember → Option String
  | .mk _ n _ _ _ _ _ => n

def RawMember.valueType : RawMember → Option String
  | .mk _ _ vt _ _ _ _ => vt

def RawMember.values : RawMember → Option (List EnumCell)
  | .mk _ _ _ vs _ _ _ => vs

def RawMember.members : RawMember → Option (List RawMember)
  | .mk _ _ _ _ ms _ _ => ms

def RawMember.template : RawMember → Option String
  | .mk _ _ _ _ _ tp _ => tp

def RawMember.params : RawMember → List String
  | .mk _ _ _ _ _ _ ps => ps

/-- Constructed member node.  The parent pointer of the source is replaced by
the full name computed at construction (the source computes `fullName()` by
walking parents; here the parent's full name is threaded down, giving the
same string).  `memberMap` is the member's flattened name index. -/
inductive Member where
  | mk (name : Option String) (mtype : String) (index : Nat) (fullName : String)
      (template : Option String) (valueType : Option String)
      (values : Option (List EnumCell)) (children : List Member)
      (memberMap : List (String × Member))

def Member.name : Member → Option String
  | .mk n _ _ _ _ _ _ _ _ => n

def Member.mtype : Member → String
  | .mk _ t _ _ _ _ _ _ _ => t

def Member.index : Member → Nat
  | .mk _ _ i _ _ _ _ _ _ => i

def Member.fullName : Member → String
  | .mk _ _ _ f _ _ _ _ _ => f

def Member.template : Member → Option String
  | .mk _ _ _ _ tp _ _ _ _ => tp

def Member.valueType : Member → Option String
  | .mk _ _ _ _ _ vt _ _ _ => vt

def Member.values : Member → Option (List EnumCell)
  | .mk _ _ _ _ _ _ vs _ _ => vs

def Member.children : Member → List Member
  | .mk _ _ _ _ _ _ _ cs _ => cs

def Member.memberMap : Member → List (String × Member)
  | .mk _ _ _ _ _ _ _ _ mm => mm

/-- Truthiness of an optional string: `none` models `undefined`, and the
empty string is falsy in JavaScript. -/
def strTruthy : Option String → Bool
  | none => false
  | some s => s ≠ ""

/-- JavaScript `a || b` on optional strings: keeps `a` when truthy. -/
def jsOrStr (a b : Option String) : Option String :=
  if strTruthy a then a else b

/-- Embedding of the source's `validName` (Schema.js line 517): a stub that
accepts every name. -/
def validName (_n : String) : Bool := true

/-- Embedding of `getName` (Schema.js lines 528-542): function members get a
parenthesized parameter-type suffix, a truthy name is used as is, otherwise
an anonymous placeholder with the sibling index. -/
def joinParams (ps : List String) : String :=
  ps.foldl (fun acc p => (if acc = "" then acc else acc ++ ", ") ++ p) ""

def getNameD (index : Nat) (d : RawMember) : String :=
  let pfix := if d.rtype = some "function" then "(" ++ joinParams d.params ++ ")" else ""
  if strTruthy d.name then d.name.getD "" ++ pfix
  else "<anonymous>[" ++ toString index ++ "]" ++ pfix

/-- Embedding of `getFullName` (Schema.js lines 551-556): prefix with the
parent's full name and `::` when a parent exists. -/
def getFullNameD (parentFullName : Option String) (index : Nat) (d : RawMember) : String :=
  match parentFullName with
  | some p => p ++ "::" ++ getNameD index d
  | none => getNameD index d

/-- Validation errors raised while parsing a schema document. -/
inductive SchemaErr where
  | missingType (mname : String)
  | noName (mname : String)
  | invalidName (mname : String)
  | noMembers (mtype : String) (mname : String)
  | nonPrimitiveValueType (mname : String)
  | noValues (mname : String)
  | invalidValues (mname : String)
  | invalidArray (mname : String)
  | duplicateMember (owner : String) (colliding : String)
  | badVersion
  | fuelOut
deriving DecidableEq

/-- JavaScript `isNaN` on an enum value. `isNaN` on a numeric string is
false, on a non-numeric string true, on a number false. -/
def evalIsNaN : EVal → Bool
  | .num _ => false
  | .nanV => true
  | .str s => (jsNumTok s).isNone

/-- Embedding of the `forEach` body of `validateEnum` (Schema.js lines
494-506).  Each entry needs a defined `name` and `value` and a valid name;
when the enum's value type is numeric a value failing `isNaN` is rejected.
The final statement of the loop body, `data.values[i] = Number(v)`, sits
outside the numeric `if` (its indentation in the source is misleading) and
coerces the whole entry object `v`, so every surviving slot is overwritten
with `NaN`. -/
def validateEnumValues (mname : String) (vt : String) :
    List EnumCell → Except SchemaErr (List EnumCell)
  | [] => .ok []
  | c :: rest =>
      match c with
      | .numv _ => .error (.invalidValues mname)
      | .entry n v =>
          if n = none ∨ v = none then .error (.invalidValues mname)
          else if ¬ validName (n.getD "") then .error (.invalidValues mname)
          else if isNumericTy vt ∧ evalIsNaN (v.getD (.str "")) = true then
            .error (.invalidValues mname)
          else
            match validateEnumValues mname vt rest with
            | .error e => .error e
            | .ok rest' => .ok (EnumCell.numv EVal.nanV :: rest')

/-- Helper rebuilding a raw member with the enum mutations applied
(`value_type` defaulted, `values` slots overwritten). -/
def RawMember.withEnum : RawMember → String → List EnumCell → RawMember
  | .mk t n _ _ ms tp ps, vt, vs => .mk t n (some vt) (some vs) ms tp ps

/-- Embedding of `validateEnum` (Schema.js lines 481-507): default the value
type to `int32` when falsy, require a primitive value type and a non-empty
values array, then validate (and overwrite) each entry. -/
def validateEnum (mname : String) (d : RawMember) : Except SchemaErr RawMember :=
  let vt := if strTruthy d.valueType then d.valueType.getD "" else "int32"
  if ¬ isPrimitiveTy vt then .error (.nonPrimitiveValueType mname)
  else
    match d.values with
    | none => .error (.noValues mname)
    | some vs =>
        if vs.length = 0 then .error (.noValues mname)
        else
          match validateEnumValues mname vt vs with
          | .error e => .error e
          | .ok vs' => .ok (d.withEnum vt vs')

/-- Embedding of `validateMember` (Schema.js lines 437-514): a member needs a
truthy `type`; only struct/union may omit `name`; a present name must pass
`validName`; struct/union need a non-empty `members` array; enum and array
members get their specific validation.  Returns the (possibly mutated) raw
data, as the source mutates `data` in place. -/
def validateMember (parentFullName : Option String) (index : Nat) (d : RawMember) :
    Except SchemaErr RawMember :=
  let mname := getFullNameD parentFullName index d
  if ¬ strTruthy d.rtype then .error (.missingType mname)
  else
    let ty := d.rtype.getD ""
    if (ty ≠ "struct" ∧ ty ≠ "union") ∧ d.name = none then .error (.noName mname)
    else if d.name.isSome ∧ ¬ validName (d.name.getD "") then .error (.invalidName mname)
    else if ty = "struct" ∨ ty = "union" then
      match d.members with
      | some ms => if ms.length = 0 then .error (.noMembers ty mname) else .ok d
      | none => .error (.noMembers ty mname)
    else if ty = "enum" then validateEnum mname d
    else if ty = "array" then
      if ¬ strTruthy d.valueType ∨ (commonTypes (d.valueType.getD "")).isNone then
        .error (.invalidArray mname)
      else .ok d
    else .ok d

/-- Embedding of `mapMembers` (Schema.js lines 370-381): record the child
under its full name, then merge the child's own map, skipping entries whose
member is not inline while the child itself is inline. -/
def mapMembers (map : List (String × Member)) (child : Member) :
    List (String × Member) :=
  let map := jsUpsert map child.fullName child
  child.memberMap.foldl
    (fun mp kv =>
      if ¬ isInline kv.2.mtype ∧ isInline child.mtype then mp
      else jsUpsert mp kv.1 kv.2)
    map

/-- Embedding of the children loop of the `Member` constructor (Schema.js
lines 383-392).  Note the source computes the name checked for duplicates
with `getFullName(parent, i, m)` — `parent` being the member's *parent*, not
the member itself — while `member_map` is keyed by the children's own full
names (prefixed by the member), so the two namespaces differ. -/
def buildChildrenWith (build : Nat → RawMember → Except SchemaErr Member)
    (parentFullName : Option String) (selfFullName : String) :
    Nat → List RawMember → List Member → List (String × Member) →
    Except SchemaErr (List Member × List (String × Member))
  | _, [], acc, accMap => .ok (acc, accMap)
  | i, m :: rest, acc, accMap =>
      let mName := getFullNameD parentFullName i m
      if (jsLookup accMap mName).isSome then
        .error (.duplicateMember selfFullName mName)
      else
        match build i m with
        | .error e => .error e
        | .ok child =>
            buildChildrenWith build parentFullName selfFullName (i + 1) rest
              (acc ++ [child]) (mapMembers accMap child)

/-- Embedding of the `Member` constructor (Schema.js lines 342-396): validate
the raw data, resolve the template (own declared value, else nearest
ancestor's, else the schema's per-type default — `getTemplateForType`), then
build the children in order while maintaining the flattened name map.  The
fuel bounds the tree depth; member trees are finite so any sufficiently large
fuel gives the source behaviour. -/
def buildMember : Nat → List (String × String) → Option String → Option String →
    Nat → RawMember → Except SchemaErr Member
  | 0, _, _, _, _, _ => .error .fuelOut
  | fuel + 1, templates, parentFullName, parentTemplate, index, d0 =>
      match validateMember parentFullName index d0 with
      | .error e => .error e
      | .ok d =>
          let fullName := getFullNameD parentFullName index d
          let template := jsOrStr d.template (jsOrStr parentTemplate
            (jsLookup templates (d.rtype.getD "")))
          match d.members with
          | none =>
              .ok (Member.mk d.name (d.rtype.getD "") index fullName template
                d.valueType d.values [] [])
          | some ms =>
              match buildChildrenWith
                  (fun i m => buildMember fuel templates (some fullName) template i m)
                  parentFullName fullName 0 ms [] [] with
              | .error e => .error e
              | .ok (children, memberMap) =>
                  .ok (Member.mk d.name (d.rtype.getD "") index fullName template
                    d.valueType d.values children memberMap)

/-! ## Schema documents and the registry (Schema.js, `Schema`) -/

/-- Default template table, `def_templates` (Schema.js lines 59-65). -/
def defTemplates : List (String × String) :=
  [ ("file", "file.template"), ("namespace", "namespace.template"),
    ("struct", "struct.template"), ("union", "union.template"),
    ("enum", "enum.template") ]

/-- Raw schema document as parsed from JSON.  `none` models an absent field
(in `init` the corresponding attribute keeps its default). -/
structure RawDoc where
  version : Option String
  members : Option (List RawMember)
  dependencies : Option (List String)
  templates : Option (List (String × String))

/-- Loaded schema document: the built member list, the flattened member
index, the (expanded) dependency names, the template table and the version. -/
structure DocState where
  members : List Member
  memberMap : List (String × Member)
  dependencies : List String
  templates : List (String × String)
  version : Option String

/-- File system model: parsed documents by name.  Dependency globs are
modelled as exact names (a glob that matches no file contributes nothing,
like `glob.sync` returning an empty list). -/
abbrev FS := List (String × RawDoc)

/-- The registry `Schema.documents`, in insertion order. -/
abbrev Reg := List (String × DocState)

/-- Errors raised by document loading.  `wrapped` models the catch block of
`Schema.prototype.load` re-throwing with the file name prepended; `fuelOut`
models a recursion that exceeds the fuel bound (divergence). -/
inductive LoadErr where
  | duplicateDoc (name : String)
  | fileNotFound (name : String)
  | schemaErr (e : SchemaErr)
  | wrapped (fname : String) (inner : LoadErr)
  | fuelOut
deriving DecidableEq

/-- Top-level member construction and index merge of `Schema.prototype.init`
(Schema.js lines 240-246): build each top member, then copy only the entries
of each member's own `member_map` into the document map — the top member
itself is never inserted. -/
def buildTopMembers (fuel : Nat) (templates : List (String × String)) :
    Nat → List RawMember → List Member → List (String × Member) →
    Except SchemaErr (List Member × List (String × Member))
  | _, [], acc, accMap => .ok (acc, accMap)
  | i, m :: rest, acc, accMap =>
      match buildMember fuel templates none none i m with
      | .error e => .error e
      | .ok mem =>
          buildTopMembers fuel templates (i + 1) rest (acc ++ [mem])
            (mem.memberMap.foldl (fun mp kv => jsUpsert mp kv.1 kv.2) accMap)

/-- Validation phase of `init` (Schema.js lines 216-249): the version check
(`validateSchema`) and the member tree construction.  This part of `init`
runs before any dependency is touched and never mutates the registry. -/
def docValidate (fuel : Nat) (rd : RawDoc) :
    Except SchemaErr (List Member × List (String × Member) × List (String × String)) :=
  if ¬ (isValidVersion rd.version = true) then .error .badVersion
  else
    let templates := rd.templates.getD defTemplates
    match buildTopMembers fuel templates 0 (rd.members.getD []) [] [] with
    | .error e => .error e
    | .ok (mems, mmap) => .ok (mems, mmap, templates)

/-- Embedding of `Schema.isValidDocument` (Schema.js lines 198-210): the file
must exist, parse, and pass `validateSchema` (the version check). -/
def isValidDocumentM (fs : FS) (name : String) : Bool :=
  match jsLookup fs name with
  | some rd => isValidVersion rd.version
  | none => false

/-- Dependency expansion of `init` (Schema.js lines 251-270): each declared
dependency resolves to the matching file (none if missing), is kept only if
it is a valid schema document and is not the root file (`s_file`, which is
always the file given to the static `Schema.load`), and duplicates are
dropped while preserving first-occurrence order. -/
def expandDepsAux (fs : FS) (root : String) : List String → List String → List String
  | [], acc => acc
  | d :: rest, acc =>
      if (jsLookup fs d).isSome then
        if isValidDocumentM fs d ∧ d ≠ root then
          if d ∈ acc then expandDepsAux fs root rest acc
          else expandDepsAux fs root rest (acc ++ [d])
        else expandDepsAux fs root rest acc
      else expandDepsAux fs root rest acc

/-- Dependency loading loop of `init` (Schema.js lines 273-277): each
dependency not yet in the registry is loaded with a fresh `Schema`; a
failure aborts the loop (the exception propagates out of `init`). -/
def loadDepsWith (loadFn : Reg → String → Reg × Except LoadErr DocState) :
    Reg → List String → Reg × Except LoadErr Unit
  | reg, [] => (reg, .ok ())
  | reg, dep :: rest =>
      if (jsLookup reg dep).isSome then loadDepsWith loadFn reg rest
      else
        match loadFn reg dep with
        | (reg', .error e) => (reg', .error e)
        | (reg', .ok _) => loadDepsWith loadFn reg' rest

/-- Embedding of `Schema.prototype.init` (Schema.js lines 216-278),
parametrized by the function used to load a dependency document. -/
def initDocWith (bfuel : Nat) (fs : FS) (root : String)
    (loadFn : Reg → String → Reg × Except LoadErr DocState)
    (reg : Reg) (rd : RawDoc) : Reg × Except LoadErr DocState :=
  match docValidate bfuel rd with
  | .error e => (reg, .error (.schemaErr e))
  | .ok (mems, mmap, templates) =>
      let deps := expandDepsAux fs root (rd.dependencies.getD []) []
      match loadDepsWith loadFn reg deps with
      | (reg', .error e) => (reg', .error e)
      | (reg', .ok _) => (reg', .ok (DocState.mk mems mmap deps templates rd.version))

/-- Embedding of `Schema.prototype.load` (Schema.js lines 285-308): fail on a
name already in the registry, fail if the file is missing, run `init`
(wrapping its errors), and register the document as the last step — only when
it has at least one member. -/
def loadDoc : Nat → FS → String → Reg → String → Reg × Except LoadErr DocState
  | 0, _, _, reg, _ => (reg, .error .fuelOut)
  | fuel + 1, fs, root, reg, name =>
      if (jsLookup reg name).isSome then (reg, .error (.duplicateDoc name))
      else
        match jsLookup fs name with
        | none => (reg, .error (.fileNotFound name))
        | some rd =>
            match initDocWith fuel fs root (loadDoc fuel fs root) reg rd with
            | (reg', .error e) => (reg', .error (.wrapped name e))
            | (reg', .ok ds) =>
                if ds.members.length > 0 then (jsUpsert reg' name ds, .ok ds)
                else (reg', .ok ds)

/-- Dependencies of a document currently in the registry. -/
def currentDeps (reg : Reg) (name : String) : List String :=
  match jsLookup reg name with
  | some ds => ds.dependencies
  | none => []

/-- Appending one dependency to a registered document, modelling
`doc.dependencies.push(d_name)`. -/
def regPushDep (reg : Reg) (name : String) (d : String) : Reg :=
  match jsLookup reg name with
  | some ds =>
      jsUpsert reg name
        (DocState.mk ds.members ds.memberMap (ds.dependencies ++ [d]) ds.templates ds.version)
  | none => reg

/-- Embedding of `applyDeps`/`addDep` (Schema.js lines 182-193): dependencies
not yet in the local seen set are appended to the document's list. -/
def applyDeps (docName : String) : Reg → List String → List String → Reg × List String
  | reg, depMap, [] => (reg, depMap)
  | reg, depMap, d :: rest =>
      if d ∈ depMap then applyDeps docName reg depMap rest
      else applyDeps docName (regPushDep reg docName d) (depMap ++ [d]) rest

/-- Iteration of `expandDependencies` over the snapshot of the document's
dependency list (a JavaScript `forEach` does not visit elements appended
during the loop), parametrized by the recursive expansion function. -/
def expandLoopWith (expander : Reg → String → Option (Reg × List String))
    (docName : String) :
    Reg → List String → List String → Option (Reg × List String)
  | reg, _, [] => some (reg, currentDeps reg docName)
  | reg, depMap, dep :: rest =>
      match jsLookup reg dep with
      | none => expandLoopWith expander docName reg depMap rest
      | some _ =>
          match expander reg dep with
          | none => none
          | some (reg', retDeps) =>
              match applyDeps docName reg' depMap retDeps with
              | (reg'', depMap') => expandLoopWith expander docName reg'' depMap' rest

/-- Embedding of `expandDependencies` (Schema.js lines 165-194): seed a local
seen set with the current dependencies, recurse into each registered
dependency and union in its (recursively expanded) dependency list, then
return the document's dependency list.  The source recursion carries no
global seen set, so it is not structurally terminating; `none` models
exceeding the fuel (divergence). -/
def expandDependencies : Nat → Reg → String → Option (Reg × List String)
  | 0, _, _ => none
  | fuel + 1, reg, docName =>
      match jsLookup reg docName with
      | none => some (reg, [])
      | some ds =>
          expandLoopWith (expandDependencies fuel) docName reg ds.dependencies
            ds.dependencies

/-- The expansion loop of the static `Schema.load` (Schema.js lines 156-158)
over every registered document. -/
def expandAllAux (fuel : Nat) : Reg → List String → Option Reg
  | reg, [] => some reg
  | reg, name :: rest =>
      match expandDependencies fuel reg name with
      | none => none
      | some (reg', _) => expandAllAux fuel reg' rest

/-- Embedding of the static `Schema.load` (Schema.js lines 148-196): load the
root document into an empty registry, then expand the dependencies of every
registered document.  Returns the final registry together with the master
document (looked up again so the master reflects the expansion, matching the
source where the registry holds the very same mutable object). -/
def schemaLoad (fuel : Nat) (fs : FS) (fname : String) :
    Except LoadErr (Reg × DocState) :=
  let root := fname
  match loadDoc fuel fs root [] root with
  | (_, .error e) => .error e
  | (reg, .ok master) =>
      match expandAllAux fuel reg (reg.map (·.1)) with
      | none => .error .fuelOut
      | some reg' => .ok (reg', (jsLookup reg' root).getD master)

/-- Embedding of `Schema.prototype.findMember` (Schema.js lines 315-317). -/
def findMember (ds : DocState) (n : String) : Option Member :=
  jsLookup ds.memberMap n

/-! ## JavaScript values (for the converters)

The converters are duck-typed: descriptors and parse trees are arbitrary
JavaScript values.  `JSV` models the value fragment they traverse: the
primitives, arrays and plain objects (fields in insertion order). -/

inductive JSV where
  | undefV
  | null
  | bool (b : Bool)
  | num (n : Int)
  | str (s : String)
  | arr (items : List JSV)
  | obj (fields : List (String × JSV))

/-- JavaScript `typeof`. -/
def jsTypeof : JSV → String
  | .undefV => "undefined"
  | .null => "object"
  | .bool _ => "boolean"
  | .num _ => "number"
  | .str _ => "string"
  | .arr _ => "object"
  | .obj _ => "object"

/-- JavaScript truthiness (the numeric fragment has no NaN; `0` is the only
falsy number here). -/
def jsTruthy : JSV → Bool
  | .undefV => false
  | .null => false
  | .bool b => b
  | .num n => n ≠ 0
  | .str s => s ≠ ""
  | .arr _ => true
  | .obj _ => true

/-- Property read `v[k]` on a value that is not `null`/`undefined` (boxed
primitives have no own properties; array reads support index keys). -/
def jsField : JSV → String → JSV
  | .obj fields, k => (jsLookup fields k).getD .undefV
  | .arr items, k =>
      match k.toNat? with
      | some i => items.getD i .undefV
      | none => .undefV
  | _, _ => .undefV

/-- Enumerable own entries of a value, as `for (k in v)` visits them: object
fields in insertion order, array elements and string characters under their
index keys, nothing for the rest. -/
def jsEnumEntries : JSV → List (String × JSV)
  | .obj fields => fields
  | .arr items => items.enum.map (fun p => (toString p.1, p.2))
  | .str s => s.data.enum.map (fun p => (toString p.1, JSV.str (String.mk [p.2])))
  | _ => []

/-! ## Descriptor validation and the struct converter stubs
(common.js `validObjClass`, converters/struct.js `toObj`/`fromObj`) -/

/-- Embedding of `exports.validObjClass` (common.js lines 59-64).  The JS
`&&` chain returns the descriptor itself when it is falsy, otherwise the
boolean conjunction of the three `typeof` checks; note `typeof null` is
`"object"`, so a `null` `_attrs`/`_refs` passes. -/
def validObjClass (oc : JSV) : JSV :=
  if ¬ jsTruthy oc then oc
  else
    .bool (jsTypeof (jsField oc "_name") = "string"
      ∧ jsTypeof (jsField oc "_attrs") = "object"
      ∧ jsTypeof (jsField oc "_refs") = "object")

/-- Error raised by the struct converter entry points. -/
inductive StructConvErr where
  | invalidObjClass
deriving DecidableEq

/-- Embedding of the struct converter `toObj` (converters/struct.js lines
88-92): validate the descriptor and otherwise fall through (the byte-level
decode is not implemented in the source, so the function returns
`undefined`). -/
def structToObj (_s : JSV) (oc : JSV) : Except StructConvErr JSV :=
  if ¬ jsTruthy (validObjClass oc) then .error .invalidObjClass
  else .ok .undefV

/-- Embedding of the struct converter `fromObj` (converters/struct.js lines
101-106), the same validation followed by an unimplemented body. -/
def structFromObj (_o : JSV) (oc : JSV) : Except StructConvErr JSV :=
  if ¬ jsTruthy (validObjClass oc) then .error .invalidObjClass
  else .ok .undefV

/-! ## XML converter (`toObj` of xml converter source, `parseChild`)

The converter runs on the intermediate tree produced by `xml2js`: the
document is an object with a single key (the root element name) whose value
is the root element object; each element object maps `"$"` to its attribute
map and each child element name to the *array* of that child's occurrences.
`parseChild` lowers such a tree to a plain object, guided by the `_refs`
part of the object-class descriptor.  Errors: `typeError` models the
JavaScript `TypeError`s the walk can raise (indexing a `null`/`undefined`
refs value, calling `push` on a non-array), `fuelOut` models exceeding the
fuel bound. -/

inductive ChildErr where
  | typeError
  | fuelOut
deriving DecidableEq

/-- Index into a refs value, `refs[k]`: throws on `null`/`undefined`. -/
def jsIndexE (refs : JSV) (k : String) : Except ChildErr JSV :=
  match refs with
  | .undefV => .error .typeError
  | .null => .error .typeError
  | v => .ok (jsField v k)

/-- The refs map passed down for a child: `refs[k] ? refs[k]._refs : {}`. -/
def subRefsOf (rk : JSV) : JSV :=
  if jsTruthy rk then jsField rk "_refs" else .obj []

/-- The container test for a child: `refs[k] && refs[k].is_container`. -/
def isContainerOf (rk : JSV) : Bool :=
  jsTruthy rk && jsTruthy (jsField rk "is_container")

/-- Embedding of `addAttrs` (xml converter): copy every enumerable entry of
the attribute value onto the result object. -/
def addAttrs (res : List (String × JSV)) (attrs : JSV) : List (String × JSV) :=
  (jsEnumEntries attrs).foldl (fun r kv => jsUpsert r kv.1 kv.2) res

/-- The base array for the push in the many-children branch:
`if (!res[k]) res[k] = []` followed by `res[k].push(...)` — an absent or
falsy slot starts from an empty array, an existing array is extended, and
pushing onto any other truthy value is a `TypeError`. -/
def pushBase (res : List (String × JSV)) (k : String) : Except ChildErr (List JSV) :=
  match jsLookup res k with
  | none => .ok []
  | some w =>
      if ¬ jsTruthy w then .ok []
      else
        match w with
        | .arr l => .ok l
        | _ => .error .typeError

/-- One iteration of the `parseChild` loop (xml converter lines 64-96),
parametrized by the function lowering a child value.  The `"$"` key merges
attributes; a non-empty array value with exactly one element lowers it and
stores it as a scalar — wrapped in a one-element array when the refs entry is
a container — while a longer array lowers every element into a list; any
other value (including an empty array) is lowered directly and either pushed
onto the existing slot (container refs) or stored as a scalar. -/
def xmlEntryStepWith (childFn : JSV → JSV → Except ChildErr JSV) (refs : JSV)
    (res : List (String × JSV)) (k : String) (v : JSV) :
    Except ChildErr (List (String × JSV)) :=
  if k = "$" then .ok (addAttrs res v)
  else
    match v with
    | .arr (t :: ts) =>
        match jsIndexE refs k with
        | .error e => .error e
        | .ok rk =>
            match ts with
            | [] =>
                match childFn t (subRefsOf rk) with
                | .error e => .error e
                | .ok c =>
                    if isContainerOf rk then .ok (jsUpsert res k (.arr [c]))
                    else .ok (jsUpsert res k c)
            | _ :: _ =>
                match pushBase res k with
                | .error e => .error e
                | .ok start =>
                    match (t :: ts).mapM (fun x => childFn x (subRefsOf rk)) with
                    | .error e => .error e
                    | .ok cs => .ok (jsUpsert res k (.arr (start ++ cs)))
    | _ =>
        match jsIndexE refs k with
        | .error e => .error e
        | .ok rk =>
            match childFn v (subRefsOf rk) with
            | .error e => .error e
            | .ok c =>
                if isContainerOf rk then
                  match jsLookup res k with
                  | some (.arr l) => .ok (jsUpsert res k (.arr (l ++ [c])))
                  | some _ => .error .typeError
                  | none => .error .typeError
                else .ok (jsUpsert res k c)

/-- Embedding of `parseChild` (xml converter `toObj`, lines 58-99): strings
lower to themselves; otherwise every enumerable entry of the element is
processed in order into a fresh result object.  The fuel bounds the depth of
the walk; parse trees are finite so any sufficiently large fuel gives the
source behaviour. -/
def parseChild : Nat → JSV → JSV → Except ChildErr JSV
  | 0, _, _ => .error .fuelOut
  | fuel + 1, elem, refs =>
      match elem with
      | .str s => .ok (.str s)
      | _ =>
          match (jsEnumEntries elem).foldlM
              (fun res kv => xmlEntryStepWith (fun e r => parseChild fuel e r)
                refs res kv.1 kv.2) [] with
          | .error e => .error e
          | .ok res => .ok (.obj res)

/-- The loop body of `parseChild` at a given fuel. -/
def xmlEntryStep (fuel : Nat) (refs : JSV) (res : List (String × JSV))
    (k : String) (v : JSV) : Except ChildErr (List (String × JSV)) :=
  xmlEntryStepWith (fun e r => parseChild fuel e r) refs res k v

/-- Errors of the XML converter entry point: the root-name mismatch carries
the descriptor name and the root element name; all other failures come from
the lowering walk. -/
inductive ConvErr where
  | wrongRoot (ocName : JSV) (rootName : JSV)
  | child (e : ChildErr)

/-- Strict equality `===` on the values compared by `toObj` (primitives
compare structurally; two object references are modelled as distinct). -/
def jsvStrictEq : JSV → JSV → Bool
  | .undefV, .undefV => true
  | .null, .null => true
  | .bool a, .bool b => a = b
  | .num a, .num b => a = b
  | .str a, .str b => a = b
  | _, _ => false

/-- Property assignment on an object value (non-objects are left unchanged;
`toObj` only assigns onto object descriptors). -/
def jsSetField : JSV → String → JSV → JSV
  | .obj fields, k, v => .obj (jsUpsert fields k v)
  | other, _, _ => other

/-- The default descriptor `def_class` of common.js. -/
def defClassJS : JSV :=
  .obj [("_name", .str "Anonymous"), ("_attrs", .obj []), ("_refs", .obj [])]

/-- Keys of the parsed document, `Object.keys(doc)` (throws on
`null`/`undefined`). -/
def jsKeysE : JSV → Except ChildErr (List String)
  | .undefV => .error .typeError
  | .null => .error .typeError
  | v => .ok ((jsEnumEntries v).map Prod.fst)

/-- The descriptor actually used by `toObj`: a falsy or non-object argument
is replaced with `def_class` (xml converter lines 22-23). -/
def xmlPickClass (oc0 : JSV) : JSV :=
  if ¬ jsTruthy oc0 ∨ jsTypeof oc0 ≠ "object" then defClassJS else oc0

/-- The root element name, `Object.keys(doc)[0]` (`undefined` when the
document object has no keys). -/
def xmlRootName (ks : List String) : JSV :=
  match ks.head? with
  | some k => .str k
  | none => .undefV

/-- The `_name` adoption of `toObj` (lines 33-34): a descriptor whose
`_name` is falsy receives the root element name. -/
def xmlAdoptName (oc : JSV) (rootName : JSV) : JSV :=
  if ¬ jsTruthy (jsField oc "_name") then jsSetField oc "_name" rootName else oc

/-- Embedding of the XML converter `toObj` (lines 21-48): replace a falsy or
non-object descriptor with `def_class`; read the root element name; assign it
to a descriptor whose `_name` is falsy (mutating the caller's descriptor —
the updated descriptor is the first component of the result); fail with the
root-mismatch error when the (possibly just assigned) `_name` differs from
the root name; otherwise lower the whole document object guided by
`_refs`.  The source's final `if (!res) throw` only guards against the
parse callback not having run synchronously; in this synchronous model the
result is always produced, so that guard has no counterpart. -/
def xmlToObj (fuel : Nat) (doc : JSV) (oc0 : JSV) : JSV × Except ConvErr JSV :=
  match jsKeysE doc with
  | .error e => (xmlPickClass oc0, .error (.child e))
  | .ok ks =>
      let oc := xmlAdoptName (xmlPickClass oc0) (xmlRootName ks)
      if ¬ jsvStrictEq (xmlRootName ks) (jsField oc "_name") then
        (oc, .error (.wrongRoot (jsField oc "_name") (xmlRootName ks)))
      else
        match parseChild fuel doc (jsField oc "_refs") with
        | .error e => (oc, .error (.child e))
        | .ok res => (oc, .ok res)

/-! ## Concrete schema documents used by the claims -/

/-- Raw record for a named `int32` member. -/
def rawInt32 (nm : String) : RawMember :=
  RawMember.mk (some "int32") (some nm) none none none none []

/-- The Point struct of the scenario claim: two `int32` children `x`, `y`. -/
def rawPoint : RawMember :=
  RawMember.mk (some "struct") (some "Point") none none
    (some [rawInt32 "x", rawInt32 "y"]) none []

/-- The scenario document `{version: "1.0.0", members: [Point]}`. -/
def pointDoc : RawDoc := RawDoc.mk (some "1.0.0") (some [rawPoint]) none none

def fsPoint : FS := [("point.json", pointDoc)]

/-- A struct whose raw member list has two children both named `x`. -/
def rawDupStruct : RawMember :=
  RawMember.mk (some "struct") (some "Point") none none
    (some [rawInt32 "x", rawInt32 "x"]) none []

/-- Enum with value type `int32` and the non-numeric value entry. -/
def rawEnumBad : RawMember :=
  RawMember.mk (some "enum") (some "E") (some "int32")
    (some [EnumCell.entry (some "X") (some (EVal.str "notanumber"))]) none none []

/-- The same enum with the numeric string value entry. -/
def rawEnumGood : RawMember :=
  RawMember.mk (some "enum") (some "E") (some "int32")
    (some [EnumCell.entry (some "X") (some (EVal.str "5"))]) none none []

/-- A one-member document with the given declared dependencies. -/
def rawSimpleDoc (nm : String) (deps : List String) : RawDoc :=
  RawDoc.mk (some "1.0.0") (some [rawInt32 nm]) (some deps) none

/-- The cyclic dependency configuration of the closure claim:
A depends on B, B depends on C, C depends on A. -/
def fsCycle : FS :=
  [("A", rawSimpleDoc "ma" ["B"]), ("B", rawSimpleDoc "mb" ["C"]),
   ("C", rawSimpleDoc "mc" ["A"])]

/-! ## Claims -/

/-- C6: with supported version major = 1, minor = 0, the version validity
check returns true for "1.0.0", false for "1.1.0" (document minor greater
than supported minor), false for "2.0.0" (major mismatch), and true for
"1.0.99" (revision ignored). -/
theorem c6_version_compatibility :
    isValidVersion (some "1.0.0") = true
    ∧ isValidVersion (some "1.1.0") = false
    ∧ isValidVersion (some "2.0.0") = false
    ∧ isValidVersion (some "1.0.99") = true := by
  decide

/-- C5 counterexample: the claim that every Alpha type descriptor with no
fixed size gets a codec with a 4-byte length prefix fails at the concrete
descriptor with no native codec — `getBinaryType` selects the codec with a
one-byte (`rs.uint8`) length prefix, whose encoding of the two-byte payload
differs from the claimed 4-byte-prefix encoding. -/
theorem c5_counterexample :
    getBinaryType (TypeDef.mk "Alpha" none none none) = .ok (some rsStringU8)
    ∧ rsStringU8 ≠ rsStringU32
    ∧ encodeRsString rsStringU8 [104, 105] = some ([2] ++ [104, 105])
    ∧ encodeRsString rsStringU8 [104, 105] ≠ some (encodeLE 4 2 ++ [104, 105]) :=
  ⟨rfl, by decide, rfl, by decide⟩

/-- C5 amended: a descriptor carrying a prebuilt native codec keeps it —
`getBinaryType` returns the native codec unchanged for every such
descriptor, and in particular returns the 4-byte little-endian
length-prefixed UTF-8 codec for the built-in `string` type's descriptor in
the `common.types` table; an Alpha descriptor with no fixed size and no
prebuilt native codec is instead given a string codec with a one-byte
length prefix. -/
theorem c5_amended :
    (∀ td : TypeDef, td.ttype = "Alpha" → td.size = none → td.native = none →
      getBinaryType td = .ok (some rsStringU8))
    ∧ (∀ (td : TypeDef) (n : RsType), td.native = some n →
        getBinaryType td = .ok (some n))
    ∧ commonTypes "string" = some (TypeDef.mk "Alpha" none none (some rsStringU32))
    ∧ (commonTypes "string").map getBinaryType = some (.ok (some rsStringU32))
    ∧ (∀ bs : List Nat,
        encodeRsString rsStringU32 bs = some (encodeLE 4 (bs.length % 256 ^ 4) ++ bs)) := by
  refine ⟨?_, ?_, by decide, rfl, fun bs => rfl⟩
  · intro td h1 h2 h3
    rcases td with ⟨t, sz, mn, nat⟩
    simp only [TypeDef.ttype] at h1
    simp only [TypeDef.size] at h2
    simp only [TypeDef.native] at h3
    subst h1
    subst h2
    subst h3
    rfl
  · intro td n h
    rcases td with ⟨t, sz, mn, nat⟩
    simp only [TypeDef.native] at h
    subst h
    rfl

/-- C5 amended witness: the amended statement evaluated at the concrete
native-less Alpha descriptor, at the built-in string descriptor (which
keeps its 4-byte-prefix native codec), and at a concrete payload. -/
theorem c5_amended_witness :
    getBinaryType (TypeDef.mk "Alpha" none none none) = .ok (some rsStringU8)
    ∧ getBinaryType (TypeDef.mk "Alpha" none none (some rsStringU32))
        = .ok (some rsStringU32)
    ∧ encodeRsString rsStringU32 [104, 105]
        = some (encodeLE 4 (([104, 105] : List Nat).length % 256 ^ 4) ++ [104, 105]) :=
  ⟨c5_amended.1 (TypeDef.mk "Alpha" none none none) rfl rfl rfl,
   c5_amended.2.1 (TypeDef.mk "Alpha" none none (some rsStringU32)) rsStringU32 rfl,
   c5_amended.2.2.2.2 [104, 105]⟩

/-- C10: `validObjClass` returns a truthy result for a descriptor whose
`_attrs`/`_refs` are `null` (because `typeof null` is `"object"`), so the
struct converter entry points do not raise for such descriptors; the
invalid-object-class error is raised exactly when the descriptor is falsy,
`_name` is not a string, or `_attrs`/`_refs` is a non-object (undefined,
number, string, ...). -/
theorem c10_validObjClass_null_maps :
    (jsTruthy (validObjClass
        (JSV.obj [("_name", .str "P"), ("_attrs", .null), ("_refs", .null)])) = true
      ∧ structToObj .undefV
          (JSV.obj [("_name", .str "P"), ("_attrs", .null), ("_refs", .null)]) = .ok .undefV
      ∧ structFromObj .undefV
          (JSV.obj [("_name", .str "P"), ("_attrs", .null), ("_refs", .null)]) = .ok .undefV)
    ∧ (∀ s oc : JSV, structToObj s oc = .error .invalidObjClass ↔
        ¬ (jsTruthy oc = true ∧ jsTypeof (jsField oc "_name") = "string"
           ∧ jsTypeof (jsField oc "_attrs") = "object"
           ∧ jsTypeof (jsField oc "_refs") = "object"))
    ∧ structToObj .undefV
        (JSV.obj [("_name", .str "P"), ("_attrs", .undefV), ("_refs", .null)])
        = .error .invalidObjClass
    ∧ structToObj .undefV
        (JSV.obj [("_name", .str "P"), ("_attrs", .num 3), ("_refs", .null)])
        = .error .invalidObjClass
    ∧ structToObj .undefV
        (JSV.obj [("_name", .str "P"), ("_attrs", .str "a"), ("_refs", .null)])
        = .error .invalidObjClass := by
  refine ⟨⟨rfl, rfl, rfl⟩, ?_, rfl, rfl, rfl⟩
  intro s oc
  cases hoc : jsTruthy oc with
  | false =>
      simp [structToObj, validObjClass, hoc]
  | true =>
      simp only [structToObj, validObjClass, hoc]
      by_cases h1 : jsTypeof (jsField oc "_name") = "string" <;>
        by_cases h2 : jsTypeof (jsField oc "_attrs") = "object" <;>
          by_cases h3 : jsTypeof (jsField oc "_refs") = "object" <;>
            simp [jsTruthy, h1, h2, h3]

/-- C1 counterexample: for the Point scenario document, loading succeeds but
`findMember("Point")` returns `undefined` — no member is returned at all,
refuting the claim that it returns a member with children `Point::x`,
`Point::y`. -/
theorem c1_counterexample :
    (schemaLoad 5 fsPoint "point.json").toOption.map (fun p => findMember p.2 "Point")
      = some none
    ∧ ¬ ∃ m, ((schemaLoad 5 fsPoint "point.json").toOption.bind
        (fun p => findMember p.2 "Point")) = some m := by
  refine ⟨rfl, ?_⟩
  rintro ⟨m, hm⟩
  have h0 : ((schemaLoad 5 fsPoint "point.json").toOption.bind
      (fun p => findMember p.2 "Point")) = none := rfl
  rw [h0] at hm
  exact Option.noConfusion hm

/-- C1 amended: the Point scenario document loads successfully; the loaded
document's single top-level member has two children with full names
`Point::x` and `Point::y`, and `findMember` returns them for those keys,
but `findMember("Point")` itself returns `undefined`, because `init` merges
only each top-level member's child map into the document index. -/
theorem c1_amended :
    (schemaLoad 5 fsPoint "point.json").toOption.map
        (fun p => (findMember p.2 "Point",
                   (findMember p.2 "Point::x").map Member.fullName,
                   (findMember p.2 "Point::y").map Member.fullName,
                   p.2.members.map (fun m => m.children.map Member.fullName)))
      = some (none, some "Point::x", some "Point::y", [["Point::x", "Point::y"]]) := by
  rfl

/-- C3: a struct whose raw member list contains two children both named `x`
is constructed successfully — the duplicate check compares the child name
computed against the *parent's* namespace (`x`) with map keys in the
member's own namespace (`Point::x`), so it never fires and no
duplicate-member error is raised. -/
theorem c3_duplicate_children_not_rejected :
    (buildMember 3 defTemplates none none 0 rawDupStruct).toOption.map
        (fun m => (m.children.length, m.children.map Member.fullName))
      = some (2, ["Point::x", "Point::x"]) := by
  rfl

/-- C4: the enum with value `"notanumber"` fails construction with the
invalid-values error, and the enum with value `"5"` succeeds — but the
surviving slot of the `values` array is overwritten with
`Number(entry) = NaN`, not the number 5. -/
theorem c4_enum_value_stored_as_nan :
    buildMember 3 defTemplates none none 0 rawEnumBad
      = .error (SchemaErr.invalidValues "E")
    ∧ (buildMember 3 defTemplates none none 0 rawEnumGood).toOption.map Member.values
      = some (some [EnumCell.numv EVal.nanV]) :=
  ⟨rfl, rfl⟩

/-- C2: for the cyclic configuration A→B, B→C, C→A, `Schema.load`
terminates — `init` filters every dependency equal to the root file, so C's
declared dependency on the root A is dropped before expansion — and after
closure expansion A's dependency set contains both B and C. -/
theorem c2_dependency_closure_terminates :
    (∃ r, schemaLoad 10 fsCycle "A" = .ok r)
    ∧ (schemaLoad 10 fsCycle "A").toOption.map
        (fun p => (currentDeps p.1 "A", currentDeps p.1 "B", currentDeps p.1 "C"))
      = some (["B", "C"], ["C"], [])
    ∧ "B" ∈ ((schemaLoad 10 fsCycle "A").toOption.map
        (fun p => currentDeps p.1 "A")).getD []
    ∧ "C" ∈ ((schemaLoad 10 fsCycle "A").toOption.map
        (fun p => currentDeps p.1 "A")).getD [] := by
  refine ⟨⟨_, rfl⟩, rfl, ?_, ?_⟩ <;> decide

/-! ## Registry consistency (claim C7) -/

/-- Preservation of registry entries by the dependency loading loop,
assuming the supplied loader preserves them. -/
theorem loadDepsWith_preserves
    (loadFn : Reg → String → Reg × Except LoadErr DocState)
    (hmono : ∀ reg n k v, jsLookup reg k = some v → jsLookup (loadFn reg n).1 k = some v) :
    ∀ deps reg k v, jsLookup reg k = some v →
      jsLookup (loadDepsWith loadFn reg deps).1 k = some v := by
  intro deps
  induction deps with
  | nil =>
      intro reg k v h
      simpa [loadDepsWith] using h
  | cons dep rest ih =>
      intro reg k v h
      rw [loadDepsWith]
      by_cases hd : (jsLookup reg dep).isSome
      · simp only [hd, if_true]
        exact ih reg k v h
      · simp only [hd, if_false]
        have hm := hmono reg dep k v h
        cases hl : loadFn reg dep with
        | mk reg' r =>
            rw [hl] at hm
            cases r with
            | error e => simpa using hm
            | ok ds => exact ih reg' k v hm

/-- Preservation of registry entries by `init`, assuming the supplied loader
preserves them. -/
theorem initDocWith_preserves (bfuel : Nat) (fs : FS) (root : String)
    (loadFn : Reg → String → Reg × Except LoadErr DocState)
    (hmono : ∀ reg n k v, jsLookup reg k = some v → jsLookup (loadFn reg n).1 k = some v) :
    ∀ reg rd k v, jsLookup reg k = some v →
      jsLookup (initDocWith bfuel fs root loadFn reg rd).1 k = some v := by
  intro reg rd k v h
  rw [initDocWith]
  cases docValidate bfuel rd with
  | error e => simpa using h
  | ok triple =>
      obtain ⟨mems, mmap, templates⟩ := triple
      dsimp only
      have hld := loadDepsWith_preserves loadFn hmono
        (expandDepsAux fs root (rd.dependencies.getD []) []) reg k v h
      cases hl : loadDepsWith loadFn reg (expandDepsAux fs root (rd.dependencies.getD []) []) with
      | mk reg' r =>
          rw [hl] at hld
          cases r with
          | error e => simpa using hld
          | ok u => simpa using hld

/-- Preservation of registry entries by a document load: every binding
present in the registry before the load is still present, unchanged,
afterwards — whether the load succeeds or fails. -/
theorem loadDoc_preserves :
    ∀ fuel fs root reg name k v, jsLookup reg k = some v →
      jsLookup (loadDoc fuel fs root reg name).1 k = some v := by
  intro fuel
  induction fuel with
  | zero =>
      intro fs root reg name k v h
      simpa [loadDoc] using h
  | succ n ih =>
      intro fs root reg name k v h
      rw [loadDoc]
      by_cases hdup : (jsLookup reg name).isSome
      · simpa [hdup] using h
      · simp only [hdup, if_false, Bool.false_eq_true]
        cases hfs : jsLookup fs name with
        | none => simpa using h
        | some rd =>
            dsimp only
            have hin := initDocWith_preserves n fs root (loadDoc n fs root)
              (fun reg' n' k' v' h' => ih fs root reg' n' k' v' h') reg rd k v h
            cases hini : initDocWith n fs root (loadDoc n fs root) reg rd with
            | mk reg' r =>
                rw [hini] at hin
                cases r with
                | error e => simpa using hin
                | ok ds =>
                    by_cases hlen : ds.members.length > 0
                    · simp only [hlen, if_true]
                      by_cases hk : k = name
                      · subst hk
                        rw [h] at hdup
                        simp at hdup
                      · simpa using (jsLookup_upsert_ne reg' name k ds hk).trans hin
                    · simpa [hlen] using hin

/-- C7: a load whose `init` fails validation (bad version or a member
construction error) returns the registry exactly as it was — the document is
never registered — and, in general, every document registered before any
load remains registered unchanged afterwards. -/
theorem c7_failed_validation_leaves_registry_unchanged :
    (∀ fuel fs root reg name k v, jsLookup reg k = some v →
        jsLookup (loadDoc fuel fs root reg name).1 k = some v)
    ∧ (∀ fuel fs root reg name rd e,
        jsLookup reg name = none → jsLookup fs name = some rd →
        docValidate fuel rd = .error e →
        loadDoc (fuel + 1) fs root reg name
          = (reg, .error (.wrapped name (.schemaErr e)))) := by
  constructor
  · exact loadDoc_preserves
  · intro fuel fs root reg name rd e hreg hfs hval
    rw [loadDoc]
    simp [hreg, hfs, initDocWith, hval]

/-- Document state used by the C7 witness as a previously registered
document. -/
def dsDummy : DocState := DocState.mk [] [] [] defTemplates (some "1.0.0")

/-- Document whose version fails validation, for the C7 witness. -/
def rawBadDoc : RawDoc := RawDoc.mk (some "9.9.9") (some [rawInt32 "g"]) none none

def fsC7 : FS := [("bad", rawBadDoc)]

/-- C7 witness: loading the bad document over a registry holding `good`
fails with the wrapped version error, leaves the registry unchanged, and
`good` is still registered. -/
theorem c7_witness :
    jsLookup ((loadDoc 3 fsC7 "bad" [("good", dsDummy)] "bad").1) "good" = some dsDummy
    ∧ loadDoc (2 + 1) fsC7 "bad" [("good", dsDummy)] "bad"
        = ([("good", dsDummy)], .error (.wrapped "bad" (.schemaErr .badVersion))) := by
  constructor
  · exact c7_failed_validation_leaves_registry_unchanged.1 3 fsC7 "bad"
      [("good", dsDummy)] "bad" "good" dsDummy rfl
  · exact c7_failed_validation_leaves_registry_unchanged.2 2 fsC7 "bad"
      [("good", dsDummy)] "bad" rawBadDoc .badVersion rfl rfl rfl

/-! ## XML lowering claims (C8, C9) -/

/-- C8: within the XML converter's lowering loop, a child element occurring
exactly once (a one-element occurrence array) lowers to the lowered scalar,
wrapped in a one-element list exactly when the refs entry for that child is a
container; a child occurring more than once always lowers to the list of the
lowered occurrences. -/
theorem c8_child_multiplicity_lowering :
    ∀ (fuel : Nat) (refs : JSV) (res : List (String × JSV)) (k : String)
      (t t2 : JSV) (ts : List JSV) (rk : JSV),
      k ≠ "$" →
      jsIndexE refs k = .ok rk →
      (xmlEntryStep fuel refs res k (.arr [t])
        = match parseChild fuel t (subRefsOf rk) with
          | .error e => .error e
          | .ok c =>
              if isContainerOf rk then .ok (jsUpsert res k (.arr [c]))
              else .ok (jsUpsert res k c))
      ∧ (jsLookup res k = none →
          xmlEntryStep fuel refs res k (.arr (t :: t2 :: ts))
            = match (t :: t2 :: ts).mapM (fun x => parseChild fuel x (subRefsOf rk)) with
              | .error e => .error e
              | .ok cs => .ok (jsUpsert res k (.arr cs))) := by
  intro fuel refs res k t t2 ts rk hk hidx
  constructor
  · rw [xmlEntryStep, xmlEntryStepWith]
    simp only [hk, if_false, hidx]
  · intro hres
    rw [xmlEntryStep, xmlEntryStepWith]
    simp only [hk, if_false, hidx, pushBase, hres]
    cases (t :: t2 :: ts).mapM (fun x => parseChild fuel x (subRefsOf rk)) with
    | error e => rfl
    | ok cs => simp

/-- C8 witness: the two branches evaluated concretely — a single `ch`
occurrence under a container refs entry lowers to a one-element list, two
occurrences lower to the two-element list. -/
theorem c8_witness :
    xmlEntryStep 1 (JSV.obj [("ch", .obj [("is_container", .bool true)])]) [] "ch"
        (.arr [.str "a"]) = .ok [("ch", JSV.arr [.str "a"])]
    ∧ xmlEntryStep 1 (JSV.obj [("ch", .obj [("is_container", .bool true)])]) [] "ch"
        (.arr [.str "a", .str "b"]) = .ok [("ch", JSV.arr [.str "a", .str "b"])] := by
  have h := c8_child_multiplicity_lowering 1
    (JSV.obj [("ch", .obj [("is_container", .bool true)])]) [] "ch"
    (.str "a") (.str "b") [] (.obj [("is_container", .bool true)])
    (by decide) rfl
  exact ⟨h.1.trans (by rfl), (h.2 rfl).trans (by rfl)⟩

/-- C9: when the object-class descriptor handed to the XML converter has a
falsy `_name` (missing or empty), `toObj` never raises the root-name
mismatch error — instead it assigns the document's root element name to the
descriptor's `_name`, mutating the caller-supplied descriptor; when `_name`
is already set, the mismatch error is raised exactly when it differs from
the root element name. -/
theorem c9_missing_name_adopts_root :
    ∀ (fuel : Nat) (k0 : String) (v0 : JSV) (entries : List (String × JSV))
      (ocFields : List (String × JSV)),
      (jsTruthy (jsField (.obj ocFields) "_name") = false →
        jsField (xmlToObj fuel (.obj ((k0, v0) :: entries)) (.obj ocFields)).1 "_name"
          = .str k0
        ∧ ∀ n r, (xmlToObj fuel (.obj ((k0, v0) :: entries)) (.obj ocFields)).2
            ≠ .error (.wrongRoot n r))
      ∧ (jsTruthy (jsField (.obj ocFields) "_name") = true →
          ((∃ n r, (xmlToObj fuel (.obj ((k0, v0) :: entries)) (.obj ocFields)).2
              = .error (.wrongRoot n r))
            ↔ jsvStrictEq (.str k0) (jsField (.obj ocFields) "_name") = false)) := by
  intro fuel k0 v0 entries ocFields
  have hpick : xmlPickClass (JSV.obj ocFields) = JSV.obj ocFields := by
    simp [xmlPickClass, jsTruthy, jsTypeof]
  have hkeys : jsKeysE (JSV.obj ((k0, v0) :: entries)) = .ok (k0 :: entries.map Prod.fst) := rfl
  have hroot : xmlRootName (k0 :: entries.map Prod.fst) = .str k0 := rfl
  constructor
  · intro hname
    have hadopt : xmlAdoptName (JSV.obj ocFields) (JSV.str k0)
        = JSV.obj (jsUpsert ocFields "_name" (.str k0)) := by
      simp [xmlAdoptName, hname, jsSetField]
    have hfield : jsField (JSV.obj (jsUpsert ocFields "_name" (.str k0))) "_name" = .str k0 := by
      simp [jsField, jsLookup_upsert_self]
    have hstrict : jsvStrictEq (JSV.str k0) (JSV.str k0) = true := by simp [jsvStrictEq]
    have hres : xmlToObj fuel (.obj ((k0, v0) :: entries)) (.obj ocFields)
        = (JSV.obj (jsUpsert ocFields "_name" (.str k0)),
           match parseChild fuel (.obj ((k0, v0) :: entries))
               (jsField (JSV.obj (jsUpsert ocFields "_name" (.str k0))) "_refs") with
           | .error e => .error (.child e)
           | .ok r => .ok r) := by
      rw [xmlToObj, hkeys]
      dsimp only
      rw [hroot, hpick, hadopt, hfield, hstrict]
      simp only [not_true, if_false]
      cases parseChild fuel (.obj ((k0, v0) :: entries))
          (jsField (JSV.obj (jsUpsert ocFields "_name" (.str k0))) "_refs") with
      | error e => rfl
      | ok r => rfl
    refine ⟨?_, ?_⟩
    · rw [hres]
      exact hfield
    · intro n r
      rw [hres]
      cases hp : parseChild fuel (.obj ((k0, v0) :: entries))
          (jsField (JSV.obj (jsUpsert ocFields "_name" (.str k0))) "_refs") with
      | error e => simp
      | ok r' => simp
  · intro hname
    have hadopt : xmlAdoptName (JSV.obj ocFields) (JSV.str k0) = JSV.obj ocFields := by
      simp [xmlAdoptName, hname]
    by_cases heq : jsvStrictEq (JSV.str k0) (jsField (JSV.obj ocFields) "_name") = true
    · have hres : xmlToObj fuel (.obj ((k0, v0) :: entries)) (.obj ocFields)
          = (JSV.obj ocFields,
             match parseChild fuel (.obj ((k0, v0) :: entries))
                 (jsField (JSV.obj ocFields) "_refs") with
             | .error e => .error (.child e)
             | .ok r => .ok r) := by
        rw [xmlToObj, hkeys]
        dsimp only
        rw [hroot, hpick, hadopt, heq]
        simp only [not_true, if_false]
        cases parseChild fuel (.obj ((k0, v0) :: entries))
            (jsField (JSV.obj ocFields) "_refs") with
        | error e => rfl
        | ok r => rfl
      constructor
      · rintro ⟨n, r, hnr⟩
        rw [hres] at hnr
        revert hnr
        cases hp : parseChild fuel (.obj ((k0, v0) :: entries))
            (jsField (JSV.obj ocFields) "_refs") with
        | error e => simp
        | ok r' => simp
      · intro hfalse
        rw [heq] at hfalse
        exact Bool.noConfusion hfalse
    · have heq' : jsvStrictEq (JSV.str k0) (jsField (JSV.obj ocFields) "_name") = false := by
        cases hb : jsvStrictEq (JSV.str k0) (jsField (JSV.obj ocFields) "_name") with
        | true => exact absurd hb heq
        | false => rfl
      have hres : xmlToObj fuel (.obj ((k0, v0) :: entries)) (.obj ocFields)
          = (JSV.obj ocFields,
             .error (.wrongRoot (jsField (JSV.obj ocFields) "_name") (.str k0))) := by
        rw [xmlToObj, hkeys]
        dsimp only
        rw [hroot, hpick, hadopt, heq']
        simp
      constructor
      · intro _
        exact heq'
      · intro _
        exact ⟨_, _, by rw [hres]⟩

/-- C9 witness: a descriptor with no `_name` field handed a document with
root element `Root` ends up with `_name = "Root"` (and, per the theorem, no
root-mismatch error was possible). -/
theorem c9_witness :
    jsField (xmlToObj 1 (JSV.obj [("Root", .str "x")]) (JSV.obj [])).1 "_name"
      = .str "Root" :=
  ((c9_missing_name_adopts_root 1 "Root" (.str "x") [] []).1 (by decide)).1

end JsShared
